import Mathlib

/-!
Verification development for the EpsteIn contact cross-referencing tool
(`src/EpsteIn.py`). The Python program is shallowly embedded below:
pure functions become Lean functions; file and network I/O is modelled by
passing the file content (as a list of lines, or a string) and the sequence
of remote responses explicitly; `sys.exit` / uncaught exceptions become
explicit outcome constructors. Machine floats for the backoff delay are
modelled by `ℚ` (the program only ever multiplies by 2 and assigns integers,
so no rounding occurs in any reachable state we reason about).
-/

namespace EpsteIn

/-! ## Basic string helpers (models of the Python built-ins used) -/

/-- Python `str.lower()` restricted to the ASCII range (the program only
compares names; `Char.toLower` agrees with Python on ASCII). -/
def lowerStr (s : String) : String := String.map Char.toLower s

/-- The whitespace characters stripped by Python `str.strip()` (ASCII part:
space, tab, newline, carriage return, vertical tab, form feed). -/
def isPyWs (c : Char) : Bool :=
  c = ' ' || c = '\t' || c = '\n' || c = '\r' || c = Char.ofNat 11 || c = Char.ofNat 12

/-- Python `str.strip()` on a character list. -/
def pyStripChars (cs : List Char) : List Char :=
  ((cs.dropWhile isPyWs).reverse.dropWhile isPyWs).reverse

/-- Python `str.strip()`. -/
def pyStrip (s : String) : String := String.mk (pyStripChars s.toList)

/-- `pat` occurs as a contiguous substring of `s` (Python `pat in s`). -/
def infixOf (pat : List Char) : List Char → Bool
  | [] => pat.isEmpty
  | c :: cs => pat.isPrefixOf (c :: cs) || infixOf pat cs

/-- Digit value of an ASCII digit. -/
def digitVal (c : Char) : Nat := c.toNat - 48

/-- Body of Python `int(str)` after the first digit: further digits, with
single underscores allowed between digits (Python 3.6+ grouping). -/
def pyIntGo : Nat → Bool → List Char → Option Nat
  | acc, afterUnd, [] => if afterUnd then none else some acc
  | acc, afterUnd, c :: cs =>
    if c.isDigit then pyIntGo (acc * 10 + digitVal c) false cs
    else if c = '_' && !afterUnd then pyIntGo acc true cs
    else none

/-- Digit run of Python `int(str)`: must start with a digit. -/
def pyIntDigits : List Char → Option Nat
  | [] => none
  | c :: cs => if c.isDigit then pyIntGo (digitVal c) false cs else none

/-- Model of Python `int(str)`: optional surrounding whitespace, optional
sign, then a decimal digit run (with underscore grouping). Returns `none`
where Python raises `ValueError` (e.g. on an HTTP-date). Unicode digits are
not modelled; all values the claims evaluate are ASCII. -/
def pyInt? (s : String) : Option Int :=
  match pyStripChars s.toList with
  | '+' :: rest => (pyIntDigits rest).map Int.ofNat
  | '-' :: rest => (pyIntDigits rest).map (fun n => -(n : Int))
  | rest => (pyIntDigits rest).map Int.ofNat

/-! ## Data model -/

/-- A normalized contact (`parse_linkedin_contacts` / `resolve_x_ids_to_names`
produce dicts of exactly this shape). -/
structure Contact where
  first_name : String
  last_name : String
  full_name : String
  company : String
  position : String
deriving DecidableEq, Repr

/-- One hit object from the search API response (`data.hits[i]`); the three
fields the renderer reads, each possibly absent. -/
structure Hit where
  content_preview : Option String
  content : Option String
  file_path : Option String
deriving DecidableEq, Repr

/-- One entry of `results` as appended by `main` (lines 783-791). -/
structure SResult where
  name : String
  first_name : String
  last_name : String
  company : String
  position : String
  total_mentions : Nat
  hits : List Hit
deriving DecidableEq, Repr

/-! ## Contact Normalizer: LinkedIn CSV parser (`parse_linkedin_contacts`)

The file is modelled as its list of lines (terminators removed; the
`utf-8-sig` BOM strip happens at decoding time and is outside the model).
The `csv` module's default dialect splitter for a single line is embedded
as a small state machine.  -/

/-- One line of CSV under the `csv` module's default dialect: fields are
separated by commas; a field starting with a double quote is read quoted,
with `""` denoting a literal quote; text after a closing quote is appended
literally (the module is lenient). `fuel` bounds recursion and is set to the
line length. Arguments: fuel, in-quotes flag, at-field-start flag, remaining
input, current field (reversed), finished fields (reversed). -/
def csvGo : Nat → Bool → Bool → List Char → List Char → List (List Char) →
    List (List Char)
  | 0, _, _, rest, cur, acc => ((cur.reverse ++ rest) :: acc).reverse
  | _ + 1, _, _, [], cur, acc => (cur.reverse :: acc).reverse
  | f + 1, true, _, c :: cs, cur, acc =>
    if c = '"' then
      match cs with
      | '"' :: cs' => csvGo f true false cs' ('"' :: cur) acc
      | _ => csvGo f false false cs cur acc
    else csvGo f true false cs (c :: cur) acc
  | f + 1, false, atStart, c :: cs, cur, acc =>
    if c = ',' then csvGo f false true cs [] (cur.reverse :: acc)
    else if c = '"' && atStart then csvGo f true false cs cur acc
    else csvGo f false false cs (c :: cur) acc

/-- Fields of one CSV line. -/
def csvFields (line : String) : List String :=
  (csvGo (line.toList.length + 1) false true line.toList [] []).map String.mk

/-- `csv.DictReader` row lookup `row.get(key, '')`: the dict is built by
zipping the header's field names with the row's fields (later duplicate
column names overwrite earlier ones, hence the reversed search). A row
shorter than the header yields `''` here; `DictReader` actually fills the
missing keys with `None`, on which the program's `.strip()` would raise —
no claim exercises that corner. -/
def rowGet (fieldnames fields : List String) (k : String) : String :=
  match ((fieldnames.zip fields).reverse.find? (fun p => p.1 == k)) with
  | some p => p.2
  | none => ""

/-- The last-name cleanup of lines 59-63: strip, then if a comma is present
truncate at the first comma and strip again. -/
def cleanLastChars (cs : List Char) : List Char :=
  let t := pyStripChars cs
  if t.contains ',' then pyStripChars (t.takeWhile (fun c => c ≠ ',')) else t

/-- Lines 57-73: one `DictReader` row to an optional contact. -/
def rowToContact (fieldnames : List String) (line : String) : Option Contact :=
  let fields := csvFields line
  let first := pyStrip (rowGet fieldnames fields "First Name")
  let last := String.mk (cleanLastChars (rowGet fieldnames fields "Last Name").toList)
  if first ≠ "" && last ≠ "" then
    some { first_name := first, last_name := last
           full_name := first ++ " " ++ last
           company := rowGet fieldnames fields "Company"
           position := rowGet fieldnames fields "Position" }
  else none

/-- Line 46: a line is taken as the header when it contains both column
names as substrings. -/
def isHeaderLine (l : String) : Bool :=
  infixOf "First Name".toList l.toList && infixOf "Last Name".toList l.toList

/-- Lines 44-51: skip lines until the header; return it and the rest. -/
def findHeader : List String → Option (String × List String)
  | [] => none
  | l :: ls => if isHeaderLine l then some (l, ls) else findHeader ls

/-- `csv.DictReader` body applied to the data lines: empty lines give empty
rows, which `DictReader` skips. -/
def dictReaderContacts (fieldnames : List String) (lines : List String) :
    List Contact :=
  (lines.filter (fun l => l ≠ "")).filterMap (rowToContact fieldnames)

/-- `parse_linkedin_contacts` (lines 34-75) over the file's lines. -/
def parse_linkedin_contacts (lines : List String) : List Contact :=
  match findHeader lines with
  | none => []
  | some (h, rest) => dictReaderContacts (csvFields h) rest

/-! ## Deduplicator (main, lines 747-755) -/

/-- Deduplication key: the lower-cased full name. -/
def nameKey (c : Contact) : String := lowerStr c.full_name

/-- The single pass of lines 750-754, with `seen_names` as an explicit
accumulator (a list with the same membership semantics as the Python set). -/
def dedupAux (seen : List String) : List Contact → List Contact
  | [] => []
  | c :: cs =>
    if seen.contains (nameKey c) then dedupAux seen cs
    else c :: dedupAux (nameKey c :: seen) cs

/-- The deduplication of `main`: first occurrence of each key wins. -/
def dedupContacts (cs : List Contact) : List Contact := dedupAux [] cs

/-! ## Script-export parser (`parse_x_following`, lines 78-108)

`json.loads` is an external library call; it is abstracted as a `decode`
parameter returning the decoded entry list, or `none` where Python would
raise `JSONDecodeError`. `sys.exit(1)` becomes `Except.error 1`. -/

/-- The nested object of one following entry (`entry['following']`). -/
structure XFollowing where
  accountId : Option String
deriving DecidableEq, Repr

/-- One entry of the decoded JSON array. -/
structure XEntry where
  following : Option XFollowing
deriving DecidableEq, Repr

/-- The literal the export file must start with (line 87). -/
def xFilePrelude : String := "window.YTD.following.part0 = "

/-- `parse_x_following`: check the literal, decode the remainder, collect
the non-empty account ids (lines 101-106). -/
def parse_x_following (decode : String → Option (List XEntry))
    (content : String) : Except Nat (List String) :=
  if xFilePrelude.toList.isPrefixOf content.toList then
    match decode (String.mk (content.toList.drop xFilePrelude.toList.length)) with
    | none => .error 1
    | some entries =>
      .ok (entries.filterMap fun e =>
        let a := ((e.following.getD { accountId := none }).accountId).getD ""
        if a = "" then none else some a)
  else .error 1

/-! ## ID resolver (`resolve_x_ids_to_names`, lines 111-175)

The remote lookup responses for one batch are supplied as a list that the
retry loop consumes. Only the control flow around one batch is modelled;
the claims touch the 429 branch (lines 137-143) and the fatal branches. -/

/-- One user object of the lookup response. -/
structure XUser where
  name : String
  username : Option String
deriving DecidableEq, Repr

/-- The lookup response body (`data` and `errors` arrays). -/
structure LookupBody where
  data : List XUser
  errors : List String
deriving DecidableEq, Repr

/-- One HTTP outcome of `requests.get` in the resolver. `failL` covers the
`RequestException`s (timeout, connection error, `raise_for_status`). -/
inductive LookupResp where
  | rateL (retryAfter : Option String)
  | unauthorized
  | forbidden
  | okL (body : LookupBody)
  | failL (msg : String)
deriving DecidableEq, Repr

/-- Outcome of the per-batch retry loop of lines 126-149. `abortedL` is an
uncaught `ValueError` from `int()`; `exitR` is `sys.exit`; `pendingR` means
the scripted responses ran out while still retrying. `waits` records the
sleeps performed for 429 responses. -/
inductive ResolveOut where
  | doneR (body : LookupBody) (delay : Int) (waits : List Int)
  | exitR (code : Nat) (waits : List Int)
  | abortedL (msg : String) (waits : List Int)
  | pendingR (waits : List Int)
deriving DecidableEq, Repr

/-- Prepend a recorded wait to a resolver outcome. -/
def consWaitR (w : Int) : ResolveOut → ResolveOut
  | .doneR b d ws => .doneR b d (w :: ws)
  | .exitR c ws => .exitR c (w :: ws)
  | .abortedL m ws => .abortedL m (w :: ws)
  | .pendingR ws => .pendingR (w :: ws)

/-- The `while True` of lines 127-149 for one batch: on 429 the wait is
`int(Retry-After)` if the header is present, else the current delay, and the
delay doubles after sleeping; 401/403 and transport failures call
`sys.exit(1)`; a 2xx returns the parsed body. -/
def resolveBatchLoop : List LookupResp → Int → ResolveOut
  | [], _ => .pendingR []
  | .rateL ra :: rest, d =>
    match ra with
    | some v =>
      match pyInt? v with
      | none => .abortedL v []
      | some n => consWaitR n (resolveBatchLoop rest (d * 2))
    | none => consWaitR d (resolveBatchLoop rest (d * 2))
  | .unauthorized :: _, _ => .exitR 1 []
  | .forbidden :: _, _ => .exitR 1 []
  | .failL _ :: _, _ => .exitR 1 []
  | .okL body :: _, d => .doneR body d []

/-- Lines 157-173: one returned user to a contact. `name.split(None, 1)`
splits at the first whitespace run; the name was already stripped. -/
def userToContact (u : XUser) : Option Contact :=
  let name := pyStrip u.name
  if name = "" then none
  else
    let cs := name.toList
    let firstTok := cs.takeWhile (fun c => !isPyWs c)
    let rest := (cs.drop firstTok.length).dropWhile isPyWs
    let handle := u.username.getD ""
    some { first_name := String.mk firstTok
           last_name := String.mk rest
           full_name := name
           company := ""
           position := if handle ≠ "" then "@" ++ handle else "" }

/-! ## Search Client (`search_epstein_files`, lines 178-216) -/

/-- The `data` object of a successful search response. -/
structure ApiData where
  totalHits : Nat
  hits : List Hit
deriving DecidableEq, Repr

/-- The search response body: `success` flag and optional `data` object. -/
structure ApiBody where
  success : Bool
  data : Option ApiData
deriving DecidableEq, Repr

/-- The result dict returned by `search_epstein_files`. -/
structure SearchRes where
  total_hits : Nat
  hits : List Hit
  error : Option String
deriving DecidableEq, Repr

/-- One HTTP outcome of `requests.get` in the search client. `fail` covers
every `requests.exceptions.RequestException`: timeout, connection error,
and the `HTTPError` raised by `raise_for_status` on a non-2xx non-429
status. -/
inductive SearchResp where
  | rate (retryAfter : Option String)
  | ok (body : ApiBody)
  | fail (msg : String)
deriving DecidableEq, Repr

/-- Outcome of one `search_epstein_files` call. `done` carries the returned
result dict and the (possibly increased) delay; `aborted` is the uncaught
`ValueError` from `int(retry_after)`; `pending` means the scripted
responses ran out while still retrying. `waits` records the 429 sleeps in
order. -/
inductive SearchOut where
  | done (res : SearchRes) (delay : ℚ) (waits : List ℚ)
  | aborted (msg : String) (delay : ℚ) (waits : List ℚ)
  | pending (delay : ℚ) (waits : List ℚ)
deriving DecidableEq, Repr

/-- Prepend a recorded wait to a search outcome. -/
def consWait (w : ℚ) : SearchOut → SearchOut
  | .done r d ws => .done r d (w :: ws)
  | .aborted m d ws => .aborted m d (w :: ws)
  | .pending d ws => .pending d (w :: ws)

/-- Lines 207-216: build the result dict from a 2xx body. A body with
`success` false (or absent) yields zero hits and no error note. -/
def okResult (body : ApiBody) : SearchRes :=
  if body.success then
    { total_hits := (body.data.map ApiData.totalHits).getD 0
      hits := (body.data.map ApiData.hits).getD []
      error := none }
  else { total_hits := 0, hits := [], error := none }

/-- `search_epstein_files` (lines 188-216) over a scripted response list.
On 429 with `Retry-After`: `delay = int(retry_after)`, then sleep `delay`.
On 429 without: `delay *= 2`, then sleep `delay` (note: the doubling
happens BEFORE the sleep, lines 195-201). On a transport failure the
result records the error text and retrying stops. -/
def search_epstein_files : List SearchResp → ℚ → SearchOut
  | [], d => .pending d []
  | .rate none :: rest, d =>
    consWait (2 * d) (search_epstein_files rest (2 * d))
  | .rate (some v) :: rest, d =>
    match pyInt? v with
    | some n => consWait (n : ℚ) (search_epstein_files rest (n : ℚ))
    | none => .aborted v d []
  | .ok body :: _, d => .done (okResult body) d []
  | .fail msg :: _, d => .done { total_hits := 0, hits := [], error := some msg } d []

/-- The list of 429 waits an outcome records. -/
def SearchOut.waits : SearchOut → List ℚ
  | .done _ _ ws => ws
  | .aborted _ _ ws => ws
  | .pending _ ws => ws

/-! ## Highlighting (`highlight_name_in_preview`, lines 219-249)

Python's `re` is used only with literal patterns (`re.escape`d strings),
`re.IGNORECASE`, word boundaries `\b` and the fixed lookarounds
`(?<!<mark>)` / `(?!</mark>)`. `pattern.sub` is a single left-to-right
non-overlapping scan; it is embedded as a fueled scanner over the character
list (fuel = input length suffices since each step consumes at least one
character of a non-empty pattern). -/

/-- Python `html.escape(s)` (with its default quote escaping). -/
def htmlEscapeChar (c : Char) : String :=
  if c = '&' then "&amp;"
  else if c = '<' then "&lt;"
  else if c = '>' then "&gt;"
  else if c = '"' then "&quot;"
  else if c = Char.ofNat 39 then "&#x27;"
  else String.singleton c

/-- Python `html.escape`. -/
def htmlEscape (s : String) : String :=
  String.join (s.toList.map htmlEscapeChar)

/-- Case-insensitive literal match of `pat` at the head of `s`; on success
returns the matched text (original case preserved, as `re` does) and the
remainder. -/
def ciMatch : List Char → List Char → Option (List Char × List Char)
  | [], s => some ([], s)
  | _ :: _, [] => none
  | p :: ps, c :: cs =>
    if p.toLower = c.toLower then
      (ciMatch ps cs).map (fun pr => (c :: pr.1, pr.2))
    else none

/-- A regex word character (`\b` boundary test); `re`'s Unicode word class
restricted to ASCII alphanumerics and underscore, which covers every
character the claims evaluate. -/
def isWordChar (c : Char) : Bool := c.isAlphanum || c = '_'

/-- The `<mark>` open tag inserted by the substitutions. -/
def markOpen : List Char := "<mark>".toList

/-- The `</mark>` close tag inserted by the substitutions. -/
def markClose : List Char := "</mark>".toList

/-- `pattern.sub` for the plain full-name pass (line 228-231): no word
boundaries, no lookarounds. -/
def subFull (pat : List Char) : Nat → List Char → List Char
  | 0, s => s
  | _ + 1, [] => []
  | f + 1, c :: cs =>
    match ciMatch pat (c :: cs) with
    | some (m, r) => markOpen ++ m ++ markClose ++ subFull pat f r
    | none => c :: subFull pat f cs

/-- `\b` between a left neighbour (none at the string edge) and a right
character: word-ness must differ. -/
def atBoundary (left : Option Char) (right : Char) : Bool :=
  (match left with | none => false | some c => isWordChar c) != isWordChar right

/-- `pattern.sub` for the word-bounded passes (lines 234-247). The scanner
carries the consumed input reversed (`left`) because the lookbehind
`(?<!<mark>)` and both `\b` tests inspect the string being scanned, not the
output. A candidate match is wrapped when: a word boundary precedes and
follows it, the six characters before it are not `<mark>`, and the text
after it does not start with `</mark>`. -/
def subBound (pat : List Char) : Nat → List Char → List Char → List Char
  | 0, _, s => s
  | _ + 1, _, [] => []
  | f + 1, left, c :: cs =>
    match ciMatch pat (c :: cs) with
    | some (m, r) =>
      let bBefore := atBoundary left.head? c
      let bAfter :=
        match r with
        | [] => (m.getLast?.map isWordChar).getD false != false
        | rc :: _ => (m.getLast?.map isWordChar).getD false != isWordChar rc
      let blockedBehind := left.take 6 = markOpen.reverse
      let blockedAhead := markClose.isPrefixOf r
      if bBefore && bAfter && !blockedBehind && !blockedAhead then
        markOpen ++ m ++ markClose ++ subBound pat f (m.reverse ++ left) r
      else c :: subBound pat f (c :: left) cs
    | none => c :: subBound pat f (c :: left) cs

/-- `highlight_name_in_preview` (lines 219-249): escape the preview, wrap
the full name, then the last name (word-bounded, ≥ 2 chars), then the first
name (word-bounded, ≥ 2 chars); the escaped name strings are the patterns. -/
def highlight_name_in_preview (preview_text first_name last_name : String) :
    String :=
  let full_name := first_name ++ " " ++ last_name
  let h0 := (htmlEscape preview_text).toList
  let p1 := (htmlEscape full_name).toList
  let h1 := subFull p1 h0.length h0
  let h2 :=
    if last_name ≠ "" && last_name.length ≥ 2 then
      subBound (htmlEscape last_name).toList h1.length [] h1
    else h1
  let h3 :=
    if first_name ≠ "" && first_name.length ≥ 2 then
      subBound (htmlEscape first_name).toList h2.length [] h2
    else h2
  String.mk h3

/-- A `<mark>` open tag occurs while a previous one is still open
(nesting detector for the rendered preview text). -/
def hasNestedAux : Nat → Nat → List Char → Bool
  | 0, _, _ => false
  | _ + 1, _, [] => false
  | f + 1, depth, c :: cs =>
    if markOpen.isPrefixOf (c :: cs) then
      if depth > 0 then true
      else hasNestedAux f 1 ((c :: cs).drop markOpen.length)
    else if markClose.isPrefixOf (c :: cs) then
      hasNestedAux f (depth - 1) ((c :: cs).drop markClose.length)
    else hasNestedAux f depth cs

/-- Whether a string contains a `<mark>` nested inside another. -/
def hasNestedMark (s : String) : Bool :=
  hasNestedAux s.toList.length 0 s.toList

/-- Number of `<mark>` open tags in a string. -/
def countMarks (s : String) : Nat :=
  let rec go : Nat → List Char → Nat
    | 0, _ => 0
    | _ + 1, [] => 0
    | f + 1, c :: cs =>
      if markOpen.isPrefixOf (c :: cs) then
        1 + go f ((c :: cs).drop markOpen.length)
      else go f cs
  go s.toList.length s.toList

/-! ## Result Aggregator: the stable descending sort (line 811)

Python's `list.sort(key=..., reverse=True)` is a stable sort under the
comparator "greater total_mentions first"; any stable sort for that order
produces the same list, so it is embedded as the canonical stable insertion
sort. -/

/-- Insert keeping existing elements with `total_mentions ≥` the new one in
front of it (stability: earlier-listed elements win ties). -/
def insertDesc (x : SResult) : List SResult → List SResult
  | [] => [x]
  | y :: ys =>
    if y.total_mentions ≤ x.total_mentions then x :: y :: ys
    else y :: insertDesc x ys

/-- `results.sort(key=lambda x: x['total_mentions'], reverse=True)`. -/
def sortByMentions (rs : List SResult) : List SResult :=
  rs.foldr insertDesc []

/-! ## Report Renderer (`generate_html_report`, lines 275-658)

The static CSS/HTML boilerplate carries no data; the renderer is embedded
as the structured values it interpolates: the summary numbers, the partial
flag, and one card per rendered contact (name, info line, mention count,
highlighted previews). The generation timestamp is nondeterministic and
omitted. -/

/-- Line 568: the preview text of a hit
(`hit.get('content_preview') or (hit.get('content') or '')[:500]`). -/
def previewOf (h : Hit) : String :=
  match h.content_preview with
  | some p => if p = "" then ((h.content.getD "").take 500) else p
  | none => (h.content.getD "").take 500

/-- One rendered contact card (lines 546-598). -/
structure Card where
  name : String
  info : String
  search_data : String
  total_mentions : Nat
  previews : List String
deriving DecidableEq, Repr

/-- Build the card for one result (the loop body of lines 542-598); all
interpolated text is HTML-escaped as in the source. -/
def mkCard (r : SResult) : Card :=
  { name := htmlEscape r.name
    info := String.intercalate " at "
      ((if r.position ≠ "" then [htmlEscape r.position] else []) ++
       (if r.company ≠ "" then [htmlEscape r.company] else []))
    search_data := htmlEscape (lowerStr (r.name ++ " " ++ r.position ++ " " ++ r.company))
    total_mentions := r.total_mentions
    previews := r.hits.map fun h =>
      highlight_name_in_preview (previewOf h) r.first_name r.last_name }

/-- The data content of the generated report. -/
structure Report where
  total_searched : Nat
  contacts_with_mentions : Nat
  total_hits : Nat
  total_contacts : Nat
  partialNote : Bool
  cards : List Card
deriving DecidableEq, Repr

/-- `generate_html_report` (lines 275-281 and the card loop): summary
counts over ALL results; cards only for results with non-zero mentions
(line 543 `continue`). `total_contacts = None` defaults to the number
searched (lines 278-279). -/
def generate_html_report (results : List SResult) (total_contacts : Option Nat)
    (was_interrupted : Bool) : Report :=
  { total_searched := results.length
    contacts_with_mentions :=
      (results.filter (fun r => decide (0 < r.total_mentions))).length
    total_hits := (results.map SResult.total_mentions).sum
    total_contacts := total_contacts.getD results.length
    partialNote := was_interrupted
    cards := (results.filter (fun r => decide (r.total_mentions ≠ 0))).map mkCard }

/-! ## Main search loop (`main`, lines 763-815)

The loop is driven by one scripted response list per contact. The
user-initiated interrupt (`KeyboardInterrupt`) is modelled at the spec's
cancellation granularity — between contacts — as an optional count of
contacts processed before the signal. The `delay` variable (initialised to
0.25 at line 771) is threaded through and never reset. The courtesy
`time.sleep(delay)` between contacts (line 794-795) does not change the
delay and is not part of the recorded 429 waits. -/

/-- Overall outcome of the loop. `aborted` is an uncaught exception
(traceback, process dies); `stuck` means a scripted response list ran out
mid-retry. `waits` concatenates the 429 waits of all contacts in order. -/
inductive RunOut where
  | finished (results : List SResult) (failed : List (String × String))
      (delay : ℚ) (waits : List ℚ)
  | interrupted (results : List SResult) (failed : List (String × String))
      (delay : ℚ) (waits : List ℚ)
  | aborted (msg : String)
  | stuck
deriving DecidableEq, Repr

/-- Record one processed contact in front of the rest of the run: prepend
its result, its failure note (if any), and its 429 waits. An aborted run
keeps nothing (the exception unwinds past the accumulators). -/
def consOut (r : SResult) (e : Option (String × String)) (w : List ℚ) :
    RunOut → RunOut
  | .finished rs fs d ws => .finished (r :: rs) (consErr e fs) d (w ++ ws)
  | .interrupted rs fs d ws => .interrupted (r :: rs) (consErr e fs) d (w ++ ws)
  | .aborted m => .aborted m
  | .stuck => .stuck
where
  consErr : Option (String × String) → List (String × String) →
      List (String × String)
    | some p, fs => p :: fs
    | none, fs => fs

/-- Lines 783-791: the result dict appended for one contact. -/
def mkSResult (c : Contact) (res : SearchRes) : SResult :=
  { name := c.full_name
    first_name := c.first_name
    last_name := c.last_name
    company := c.company
    position := c.position
    total_mentions := res.total_hits
    hits := res.hits }

/-- The `for` loop of lines 774-795 with the interrupt boundary of
line 797. `intr = some k` delivers the interrupt before processing the
`k`-th remaining contact. -/
def runLoop : List Contact → List (List SearchResp) → Option Nat → ℚ → RunOut
  | contacts, scripts, intr, d =>
    match intr with
    | some 0 => .interrupted [] [] d []
    | _ =>
      match contacts with
      | [] => .finished [] [] d []
      | c :: cs =>
        match search_epstein_files (scripts.headD []) d with
        | .done res d' w =>
          consOut (mkSResult c res) (res.error.map fun e => (c.full_name, e)) w
            (runLoop cs scripts.tail (intr.map (fun k => k - 1)) d')
        | .aborted m _ _ => .aborted m
        | .pending _ _ => .stuck

/-- The 429 waits a whole run records. -/
def RunOut.waits : RunOut → List ℚ
  | .finished _ _ _ ws => ws
  | .interrupted _ _ _ ws => ws
  | .aborted _ => []
  | .stuck => []

/-- The initial backoff delay of line 771. -/
def initialDelay : ℚ := 1 / 4

/-- The search phase of `main`: the loop started at `delay = 0.25`. -/
def mainSearchPhase (contacts : List Contact)
    (scripts : List (List SearchResp)) (intr : Option Nat) : RunOut :=
  runLoop contacts scripts intr initialDelay

/-- Observable end of the process for the part of `main` after the loop. -/
inductive MainOut where
  | wrote (rep : Report) (exitCode : Nat)
  | noFile (exitCode : Nat)
  | crashed (msg : String)
deriving DecidableEq, Repr

/-- Lines 797-815: on interrupt with no results, exit 0 without writing;
otherwise sort descending by mentions and write the report (partial flag =
whether the run was interrupted), exiting 0. An uncaught exception crashes
the process (non-zero exit, no file). -/
def mainFinalize (totalContacts : Nat) : RunOut → MainOut
  | .interrupted rs _ _ _ =>
    if rs.isEmpty then .noFile 0
    else .wrote (generate_html_report (sortByMentions rs) (some totalContacts) true) 0
  | .finished rs _ _ _ =>
    .wrote (generate_html_report (sortByMentions rs) (some totalContacts) false) 0
  | .aborted m => .crashed m
  | .stuck => .crashed "no scripted response"

/-! ## X-branch of `main` with its network trace (for claim C8)

`mainXBranch` models lines 736-745: parse the export file, then resolve the
ids remotely. The network activity is an explicit event trace; the parser
performs none. -/

/-- A remote call the program makes. -/
inductive NetEvent where
  | lookupCall (ids : List String)
  | searchCall (q : String)
deriving DecidableEq, Repr

/-- Parse the export file, then hand the ids to the resolver (which is the
only network activity of the branch). -/
def mainXBranch (decode : String → Option (List XEntry)) (content : String)
    (resolver : List String → List Contact × List NetEvent) :
    Except Nat (List Contact) × List NetEvent :=
  match parse_x_following decode content with
  | .error n => (.error n, [])
  | .ok ids =>
    let r := resolver ids
    (.ok r.1, r.2)

/-! ## Lemmas about the Deduplicator -/

/-- The dedup pass only ever removes elements, keeping order. -/
theorem dedupAux_sublist (seen : List String) (cs : List Contact) :
    List.Sublist (dedupAux seen cs) cs := by
  induction cs generalizing seen with
  | nil => simp [dedupAux]
  | cons c cs ih =>
    simp only [dedupAux]
    by_cases h : seen.contains (nameKey c)
    · rw [if_pos h]
      exact (ih seen).trans (List.sublist_cons_self c cs)
    · rw [if_neg h]
      exact (ih (nameKey c :: seen)).cons₂ c

/-- Key-filtered view of the dedup pass: keys already seen vanish; for a
fresh key, exactly the first occurrence survives. -/
theorem dedupAux_filter (k : String) (cs : List Contact) : ∀ (seen : List String),
    (dedupAux seen cs).filter (fun c => nameKey c == k)
      = if k ∈ seen then [] else (cs.filter (fun c => nameKey c == k)).take 1 := by
  induction cs with
  | nil => intro seen; by_cases h : k ∈ seen <;> simp [dedupAux, h]
  | cons c cs ih =>
    intro seen
    simp only [dedupAux]
    by_cases hc : nameKey c ∈ seen
    · rw [if_pos (List.elem_iff.mpr hc), ih]
      by_cases hk : k ∈ seen
      · simp [hk]
      · have hne : (nameKey c == k) = false := by
          simp only [beq_eq_false_iff_ne, ne_eq]
          intro h
          exact hk (h ▸ hc)
        simp [hk, List.filter_cons, hne]
    · rw [if_neg (fun h => hc (List.elem_iff.mp h))]
      by_cases hck : nameKey c = k
      · subst hck
        simp only [List.filter_cons, beq_self_eq_true, if_true, ih]
        simp [hc]
      · have hne : (nameKey c == k) = false := by simp [hck]
        have hmm : (k ∈ nameKey c :: seen) ↔ (k ∈ seen) := by
          simp [List.mem_cons, Ne.symm hck]
        by_cases hk : k ∈ seen
        · simp [List.filter_cons, hne, ih, hk, hmm]
        · simp [List.filter_cons, hne, ih, hk, hmm]

/-- Running the pass on its own output changes nothing. -/
theorem dedupAux_idem (cs : List Contact) : ∀ (seen : List String),
    dedupAux seen (dedupAux seen cs) = dedupAux seen cs := by
  induction cs with
  | nil => intro seen; simp [dedupAux]
  | cons c cs ih =>
    intro seen
    simp only [dedupAux]
    by_cases hc : nameKey c ∈ seen
    · simp [hc, ih]
    · simp [hc, dedupAux, ih]

/-! ## Lemmas about the stable descending sort -/

/-- Insertion permutes. -/
theorem insertDesc_perm (x : SResult) (l : List SResult) :
    List.Perm (insertDesc x l) (x :: l) := by
  induction l with
  | nil => simp [insertDesc]
  | cons y ys ih =>
    simp only [insertDesc]
    by_cases h : y.total_mentions ≤ x.total_mentions
    · simp [h]
    · rw [if_neg h]
      exact (ih.cons y).trans (List.Perm.swap x y ys)

/-- The sort permutes. -/
theorem sortByMentions_perm (rs : List SResult) :
    List.Perm (sortByMentions rs) rs := by
  induction rs with
  | nil => exact List.Perm.refl []
  | cons r rs ih => exact (insertDesc_perm r _).trans (ih.cons r)

/-- Inserting into a descending list keeps it descending. -/
theorem insertDesc_pairwise (x : SResult) (l : List SResult)
    (h : l.Pairwise (fun a b => b.total_mentions ≤ a.total_mentions)) :
    (insertDesc x l).Pairwise (fun a b => b.total_mentions ≤ a.total_mentions) := by
  induction l with
  | nil => simp [insertDesc]
  | cons y ys ih =>
    rcases List.pairwise_cons.mp h with ⟨hy, hys⟩
    simp only [insertDesc]
    by_cases hle : y.total_mentions ≤ x.total_mentions
    · rw [if_pos hle]
      refine List.pairwise_cons.mpr ⟨?_, h⟩
      intro z hz
      rcases List.mem_cons.mp hz with rfl | hz
      · exact hle
      · exact (hy z hz).trans hle
    · rw [if_neg hle]
      refine List.pairwise_cons.mpr ⟨?_, ih hys⟩
      intro z hz
      rcases List.mem_cons.mp ((insertDesc_perm x ys).mem_iff.mp hz) with h1 | h2
      · rw [h1]
        exact le_of_not_le hle
      · exact hy z h2

/-- The sorted output is descending in `total_mentions`. -/
theorem sortByMentions_pairwise (rs : List SResult) :
    (sortByMentions rs).Pairwise (fun a b => b.total_mentions ≤ a.total_mentions) := by
  induction rs with
  | nil => simp [sortByMentions]
  | cons r rs ih => exact insertDesc_pairwise r _ ih

/-- Key-filtered view of insertion: elements passed over on the way in all
have strictly larger keys, so the relative order of equal keys is kept. -/
theorem filter_insertDesc (k : Nat) (x : SResult) (l : List SResult) :
    (insertDesc x l).filter (fun r => r.total_mentions == k)
      = if x.total_mentions == k
        then x :: l.filter (fun r => r.total_mentions == k)
        else l.filter (fun r => r.total_mentions == k) := by
  induction l with
  | nil => by_cases h : x.total_mentions = k <;> simp [insertDesc, List.filter_cons, h]
  | cons y ys ih =>
    simp only [insertDesc]
    by_cases hle : y.total_mentions ≤ x.total_mentions
    · rw [if_pos hle]
      by_cases hx : x.total_mentions = k
      · simp [List.filter_cons, hx]
      · simp [List.filter_cons, hx]
    · rw [if_neg hle]
      by_cases hx : x.total_mentions = k
      · have hy : (y.total_mentions == k) = false := by
          have : k < y.total_mentions := hx ▸ Nat.lt_of_not_le hle
          simp [Nat.ne_of_gt this]
        simp [List.filter_cons, hy, ih, hx]
      · have hxb : (x.total_mentions == k) = false := by simp [hx]
        by_cases hy : y.total_mentions = k
        · simp [List.filter_cons, hy, ih, hxb]
        · simp [List.filter_cons, hy, ih, hxb]

/-- Stability of the sort: for each mention count, the subsequence with
that count is unchanged. -/
theorem filter_sortByMentions (k : Nat) (rs : List SResult) :
    (sortByMentions rs).filter (fun r => r.total_mentions == k)
      = rs.filter (fun r => r.total_mentions == k) := by
  induction rs with
  | nil => rfl
  | cons r rs ih =>
    show (insertDesc r (sortByMentions rs)).filter _ = _
    rw [filter_insertDesc]
    by_cases h : r.total_mentions = k
    · simp [List.filter_cons, h, ih]
    · simp [List.filter_cons, h, ih]

/-- Claim C2: after the single stable descending sort by `total_mentions`,
the mention counts are non-increasing and ties keep their prior relative
order; the rendered report has one card for exactly the results with
`total_mentions > 0`, while zero-mention results still enter the summary
counts (total searched, contacts with mentions, total hits), which agree
with the unsorted input. -/
theorem c2_sort_and_report (rs : List SResult) (m : Nat) (w : Bool) :
    (sortByMentions rs).Pairwise (fun a b => b.total_mentions ≤ a.total_mentions)
    ∧ (∀ k : Nat, (sortByMentions rs).filter (fun r => r.total_mentions == k)
        = rs.filter (fun r => r.total_mentions == k))
    ∧ (generate_html_report (sortByMentions rs) (some m) w).cards
        = ((sortByMentions rs).filter (fun r => decide (0 < r.total_mentions))).map mkCard
    ∧ (generate_html_report (sortByMentions rs) (some m) w).total_searched = rs.length
    ∧ (generate_html_report (sortByMentions rs) (some m) w).contacts_with_mentions
        = (rs.filter (fun r => decide (0 < r.total_mentions))).length
    ∧ (generate_html_report (sortByMentions rs) (some m) w).total_hits
        = (rs.map SResult.total_mentions).sum := by
  refine ⟨sortByMentions_pairwise rs, fun k => filter_sortByMentions k rs, ?_, ?_, ?_, ?_⟩
  · show ((sortByMentions rs).filter (fun r => decide (r.total_mentions ≠ 0))).map mkCard = _
    congr 1
    refine List.filter_congr ?_
    intro r _
    simp [Nat.pos_iff_ne_zero]
  · exact (sortByMentions_perm rs).length_eq
  · exact ((sortByMentions_perm rs).filter _).length_eq
  · exact ((sortByMentions_perm rs).map SResult.total_mentions).sum_eq

/-- Claim C3: the Deduplicator keeps exactly the first occurrence of each
case-insensitively equal `full_name` (later ones dropped), preserves the
order of first appearance (its output is a sublist of its input), and is
idempotent. -/
theorem c3_dedup (cs : List Contact) :
    List.Sublist (dedupContacts cs) cs
    ∧ (∀ k : String, (dedupContacts cs).filter (fun c => nameKey c == k)
        = (cs.filter (fun c => nameKey c == k)).take 1)
    ∧ dedupContacts (dedupContacts cs) = dedupContacts cs := by
  refine ⟨dedupAux_sublist [] cs, fun k => ?_, dedupAux_idem cs []⟩
  have h := dedupAux_filter k cs []
  simpa using h

/-! ## Unfolding helpers for the main loop -/

/-- Concrete contact used to evaluate run-level statements. -/
def demoContact : Contact :=
  { first_name := "Ada", last_name := "Ng", full_name := "Ada Ng"
    company := "", position := "" }

/-- A second concrete contact. -/
def demoContact2 : Contact :=
  { first_name := "Bo", last_name := "Li", full_name := "Bo Li"
    company := "", position := "" }

/-- Concrete successful response body. -/
def demoBody : ApiBody :=
  { success := true, data := some { totalHits := 3, hits := [] } }

/-- One loop iteration without an interrupt. -/
theorem runLoop_cons_none (c : Contact) (cs : List Contact)
    (scripts : List (List SearchResp)) (d : ℚ) :
    runLoop (c :: cs) scripts none d
      = match search_epstein_files (scripts.headD []) d with
        | .done res d' w =>
          consOut (mkSResult c res) (res.error.map fun e => (c.full_name, e)) w
            (runLoop cs scripts.tail none d')
        | .aborted m _ _ => .aborted m
        | .pending _ _ => .stuck := rfl

/-- One loop iteration with the interrupt still pending. -/
theorem runLoop_cons_succ (c : Contact) (cs : List Contact)
    (scripts : List (List SearchResp)) (k : Nat) (d : ℚ) :
    runLoop (c :: cs) scripts (some (k + 1)) d
      = match search_epstein_files (scripts.headD []) d with
        | .done res d' w =>
          consOut (mkSResult c res) (res.error.map fun e => (c.full_name, e)) w
            (runLoop cs scripts.tail (some k) d')
        | .aborted m _ _ => .aborted m
        | .pending _ _ => .stuck := rfl

/-- The interrupt arriving before the next contact ends the loop at once. -/
theorem runLoop_intr_zero (contacts : List Contact)
    (scripts : List (List SearchResp)) (d : ℚ) :
    runLoop contacts scripts (some 0) d = .interrupted [] [] d [] := by
  cases contacts <;> rfl

/-- No contacts left: the loop finishes. -/
theorem runLoop_nil_succ (scripts : List (List SearchResp)) (k : Nat) (d : ℚ) :
    runLoop [] scripts (some (k + 1)) d = .finished [] [] d [] := rfl

/-! ## Claim theorems -/

/-- Claim C1 (amended): the backoff delay starts at 0.25 and is threaded
from contact to contact without reset. On a 429 with `Retry-After`, the
parsed value becomes both the wait and the new delay. On a 429 without
`Retry-After` the client FIRST doubles the delay and THEN waits the doubled
delay (not the other way round), so across `n` consecutive such responses
starting from delay `d` the recorded waits are `2d, 4d, …, 2^n d` — each
wait twice the previous — the final delay is `2^n d`, and the same request
is retried until the first non-429 response decides the result. In a run,
the first wait after a header-less 429 on the very first contact is
therefore 0.5, twice the initial 0.25. -/
theorem c1_backoff :
    (∀ (v : String) (n : Int) (rest : List SearchResp) (d : ℚ),
      pyInt? v = some n →
      search_epstein_files (.rate (some v) :: rest) d
        = consWait (n : ℚ) (search_epstein_files rest (n : ℚ)))
    ∧ (∀ (n : Nat) (body : ApiBody) (rest : List SearchResp) (d : ℚ),
      search_epstein_files (List.replicate n (.rate none) ++ .ok body :: rest) d
        = .done (okResult body) (2 ^ n * d)
            ((List.range n).map fun i => 2 ^ (i + 1) * d))
    ∧ (∀ (c : Contact) (cs : List Contact) (s : List SearchResp)
        (os : List (List SearchResp)) (d : ℚ) (res : SearchRes) (d' : ℚ)
        (w : List ℚ) (r2 : List SResult) (f2 : List (String × String))
        (d2 : ℚ) (w2 : List ℚ),
      search_epstein_files s d = .done res d' w →
      runLoop cs os none d' = .finished r2 f2 d2 w2 →
      runLoop (c :: cs) (s :: os) none d
        = .finished (mkSResult c res :: r2)
            (consOut.consErr (res.error.map fun e => (c.full_name, e)) f2)
            d2 (w ++ w2))
    ∧ (∀ (c : Contact) (body : ApiBody),
      (mainSearchPhase [c] [[.rate none, .ok body]] none).waits = [1 / 2]) := by
  refine ⟨?_, ?_, ?_, ?_⟩
  · intro v n rest d h
    simp [search_epstein_files, h]
  · intro n body rest
    induction n with
    | zero => intro d; simp [search_epstein_files]
    | succ n ih =>
      intro d
      rw [List.replicate_succ, List.cons_append]
      show consWait (2 * d) (search_epstein_files _ (2 * d)) = _
      rw [ih (2 * d)]
      simp only [consWait]
      have hd : (2 : ℚ) ^ n * (2 * d) = 2 ^ (n + 1) * d := by ring
      have hl : (2 * d) :: ((List.range n).map fun i => (2 : ℚ) ^ (i + 1) * (2 * d))
          = (List.range (n + 1)).map fun i => (2 : ℚ) ^ (i + 1) * d := by
        rw [List.range_succ_eq_map, List.map_cons, List.map_map]
        have h0 : (2 : ℚ) ^ (0 + 1) * d = 2 * d := by norm_num
        have ht : ((fun i => (2 : ℚ) ^ (i + 1) * d) ∘ Nat.succ)
            = fun i => (2 : ℚ) ^ (i + 1) * (2 * d) := by
          funext i
          simp only [Function.comp_apply, Nat.succ_eq_add_one]
          ring
        rw [h0, ht]
      rw [hd, hl]
  · intro c cs s os d res d' w r2 f2 d2 w2 h1 h2
    rw [runLoop_cons_none, List.headD_cons, List.tail_cons, h1]
    dsimp only
    rw [h2]
    rfl
  · intro c body
    have h : search_epstein_files [.rate none, .ok body] initialDelay
        = .done (okResult body) (1 / 2) [1 / 2] := by
      show consWait (2 * initialDelay)
        (search_epstein_files [.ok body] (2 * initialDelay)) = _
      norm_num [initialDelay, search_epstein_files, consWait]
    rw [mainSearchPhase, runLoop_cons_none, List.headD_cons, List.tail_cons, h]
    cases he : (okResult body).error with
    | none => rfl
    | some e => rfl

/-- Witness for C1: the Retry-After equation at value "7", and the
cross-contact threading equation at a one-contact run. -/
theorem c1_backoff_witness :
    search_epstein_files [SearchResp.rate (some "7")] (1 / 4)
      = consWait ((7 : Int) : ℚ) (search_epstein_files [] ((7 : Int) : ℚ))
    ∧ runLoop [demoContact] [[SearchResp.ok demoBody]] none (1 / 4)
      = .finished [mkSResult demoContact (okResult demoBody)]
          (consOut.consErr
            ((okResult demoBody).error.map fun e => (demoContact.full_name, e)) [])
          (1 / 4) ([] ++ []) :=
  ⟨c1_backoff.1 "7" 7 [] (1 / 4) (by decide),
   c1_backoff.2.2.1 demoContact [] [SearchResp.ok demoBody] [] (1 / 4)
     (okResult demoBody) (1 / 4) [] [] [] (1 / 4) [] rfl rfl⟩

/-- Counterexample for C1 as stated: on the first header-less 429 at the
initial delay 0.25, the recorded wait is 0.5 (the delay is doubled before
sleeping), not the current delay 0.25 the claim asserts. -/
theorem c1_backoff_counterexample :
    (search_epstein_files [SearchResp.rate none, SearchResp.ok demoBody]
        (1 / 4)).waits = [1 / 2]
    ∧ (search_epstein_files [SearchResp.rate none, SearchResp.ok demoBody]
        (1 / 4)).waits ≠ [1 / 4] := by
  have h : search_epstein_files [SearchResp.rate none, SearchResp.ok demoBody]
      (1 / 4) = .done (okResult demoBody) (1 / 2) [1 / 2] := by
    show consWait (2 * (1 / 4))
      (search_epstein_files [SearchResp.ok demoBody] (2 * (1 / 4))) = _
    norm_num [search_epstein_files, consWait]
  rw [h]
  constructor
  · rfl
  · simp only [SearchOut.waits, ne_eq, List.cons.injEq, and_true]
    norm_num

/-- Claim C7: a transport failure (timeout, connection error, or the
exception `raise_for_status` raises on an unexpected non-2xx status) ends
retrying for that contact at once — any further scripted responses are
never consumed — and yields `total_hits = 0`, an empty hit list and the
error text; the main loop records the failure and continues with the
remaining contacts instead of aborting the run. -/
theorem c7_transport_failure :
    (∀ (msg : String) (rest : List SearchResp) (d : ℚ),
      search_epstein_files (.fail msg :: rest) d
        = .done { total_hits := 0, hits := [], error := some msg } d [])
    ∧ (∀ (c : Contact) (cs : List Contact) (msg : String) (s : List SearchResp)
        (os : List (List SearchResp)) (d : ℚ),
      runLoop (c :: cs) ((.fail msg :: s) :: os) none d
        = consOut (mkSResult c { total_hits := 0, hits := [], error := some msg })
            (some (c.full_name, msg)) [] (runLoop cs os none d)) := by
  constructor
  · intro msg rest d
    rfl
  · intro c cs msg s os d
    rw [runLoop_cons_none, List.headD_cons, List.tail_cons]
    rfl

/-- Claim C10: `Retry-After` values are consumed by `int()`, and a value
that is not a decimal integer (e.g. an HTTP-date) raises an uncaught
`ValueError` in both the search client and the ID resolver; in a run this
aborts the whole process (non-zero exit, no report), rather than being
handled as a recoverable rate limit or recorded as that contact's error. -/
theorem c10_retry_after_parse (v : String) (h : pyInt? v = none) :
    (∀ (rest : List SearchResp) (d : ℚ),
      search_epstein_files (.rate (some v) :: rest) d = .aborted v d [])
    ∧ (∀ (rest : List LookupResp) (d : Int),
      resolveBatchLoop (.rateL (some v) :: rest) d = .abortedL v [])
    ∧ (∀ (c : Contact) (cs : List Contact) (s : List SearchResp)
        (os : List (List SearchResp)) (d : ℚ),
      runLoop (c :: cs) ((.rate (some v) :: s) :: os) none d = .aborted v)
    ∧ (∀ (c : Contact) (cs : List Contact) (s : List SearchResp)
        (os : List (List SearchResp)) (d : ℚ),
      mainFinalize (c :: cs).length
        (runLoop (c :: cs) ((.rate (some v) :: s) :: os) none d) = .crashed v) := by
  have hs : ∀ (rest : List SearchResp) (d : ℚ),
      search_epstein_files (.rate (some v) :: rest) d = .aborted v d [] := by
    intro rest d
    simp [search_epstein_files, h]
  have hr : ∀ (c : Contact) (cs : List Contact) (s : List SearchResp)
      (os : List (List SearchResp)) (d : ℚ),
      runLoop (c :: cs) ((.rate (some v) :: s) :: os) none d = .aborted v := by
    intro c cs s os d
    rw [runLoop_cons_none, List.headD_cons, hs]
  refine ⟨hs, ?_, hr, ?_⟩
  · intro rest d
    simp [resolveBatchLoop, h]
  · intro c cs s os d
    rw [hr]
    rfl

/-- Witness for C10: an HTTP-date `Retry-After` value is rejected by the
integer parse and crashes the run. -/
theorem c10_retry_after_parse_witness :
    search_epstein_files
        [SearchResp.rate (some "Wed, 21 Oct 2015 07:28:00 GMT")] 1
      = .aborted "Wed, 21 Oct 2015 07:28:00 GMT" 1 []
    ∧ mainFinalize 1
        (runLoop [demoContact]
          [[SearchResp.rate (some "Wed, 21 Oct 2015 07:28:00 GMT")]] none (1 / 4))
      = .crashed "Wed, 21 Oct 2015 07:28:00 GMT" :=
  ⟨(c10_retry_after_parse "Wed, 21 Oct 2015 07:28:00 GMT" (by decide)).1 [] 1,
   (c10_retry_after_parse "Wed, 21 Oct 2015 07:28:00 GMT" (by decide)).2.2.2
     demoContact [] [] [] (1 / 4)⟩

/-- An interrupted run holds exactly the results of the contacts processed
before the interrupt arrived. -/
theorem runLoop_interrupted_length :
    ∀ (contacts : List Contact) (scripts : List (List SearchResp)) (k : Nat)
      (d : ℚ) (rs : List SResult) (fs : List (String × String)) (dl : ℚ)
      (ws : List ℚ),
      runLoop contacts scripts (some k) d = .interrupted rs fs dl ws →
      rs.length = min k contacts.length := by
  intro contacts
  induction contacts with
  | nil =>
    intro scripts k d rs fs dl ws h
    cases k with
    | zero =>
      rw [runLoop_intr_zero] at h
      injection h with h1 h2 h3 h4
      rw [← h1]
      simp
    | succ k =>
      rw [runLoop_nil_succ] at h
      exact RunOut.noConfusion h
  | cons c cs ih =>
    intro scripts k d rs fs dl ws h
    cases k with
    | zero =>
      rw [runLoop_intr_zero] at h
      injection h with h1 h2 h3 h4
      rw [← h1]
      simp
    | succ k =>
      rw [runLoop_cons_succ] at h
      split at h
      · rename_i res d' w heq
        cases hr : runLoop cs scripts.tail (some k) d' with
        | finished rs' fs' dl' ws' =>
          rw [hr] at h
          simp [consOut] at h
        | interrupted rs' fs' dl' ws' =>
          rw [hr] at h
          simp only [consOut] at h
          injection h with h1 h2 h3 h4
          rw [← h1]
          have hlen := ih scripts.tail k d' rs' fs' dl' ws' hr
          simp [List.length_cons, hlen, Nat.succ_min_succ]
        | aborted m =>
          rw [hr] at h
          simp [consOut] at h
        | stuck =>
          rw [hr] at h
          simp [consOut] at h
      · exact RunOut.noConfusion h
      · exact RunOut.noConfusion h

/-- Claim C9: an interrupt during the search loop preserves exactly the
results gathered so far; with at least one result the program still sorts
them (a permutation of what was gathered), writes the report flagged as
partial with "N of M contacts searched", and exits zero; with zero results
it exits zero without writing a file. -/
theorem c9_interrupt (contacts : List Contact)
    (scripts : List (List SearchResp)) (k : Nat) (d : ℚ) (rs : List SResult)
    (fs : List (String × String)) (dl : ℚ) (ws : List ℚ)
    (h : runLoop contacts scripts (some k) d = .interrupted rs fs dl ws) :
    rs.length = min k contacts.length
    ∧ List.Perm (sortByMentions rs) rs
    ∧ (rs.isEmpty = true →
        mainFinalize contacts.length (runLoop contacts scripts (some k) d)
          = .noFile 0)
    ∧ (rs.isEmpty = false →
        mainFinalize contacts.length (runLoop contacts scripts (some k) d)
          = .wrote (generate_html_report (sortByMentions rs)
              (some contacts.length) true) 0
        ∧ (generate_html_report (sortByMentions rs)
            (some contacts.length) true).partialNote = true
        ∧ (generate_html_report (sortByMentions rs)
            (some contacts.length) true).total_searched = rs.length
        ∧ (generate_html_report (sortByMentions rs)
            (some contacts.length) true).total_contacts = contacts.length) := by
  refine ⟨runLoop_interrupted_length contacts scripts k d rs fs dl ws h,
    sortByMentions_perm rs, ?_, ?_⟩
  · intro he
    rw [h]
    simp [mainFinalize, he]
  · intro he
    rw [h]
    refine ⟨by simp [mainFinalize, he], rfl, ?_, rfl⟩
    show (sortByMentions rs).length = rs.length
    exact (sortByMentions_perm rs).length_eq

/-- Witness for C9: a two-contact run interrupted after one contact writes
a partial report; interrupted before any contact writes nothing. -/
theorem c9_interrupt_witness :
    ([mkSResult demoContact (okResult demoBody)] : List SResult).length = min 1 2
    ∧ mainFinalize 2
        (runLoop [demoContact, demoContact2]
          [[SearchResp.ok demoBody], [SearchResp.ok demoBody]] (some 1) (1 / 4))
      = .wrote (generate_html_report
          (sortByMentions [mkSResult demoContact (okResult demoBody)])
          (some 2) true) 0
    ∧ mainFinalize 2
        (runLoop [demoContact, demoContact2]
          [[SearchResp.ok demoBody], [SearchResp.ok demoBody]] (some 0) (1 / 4))
      = .noFile 0 := by
  have h1 := c9_interrupt [demoContact, demoContact2]
    [[SearchResp.ok demoBody], [SearchResp.ok demoBody]] 1 (1 / 4)
    [mkSResult demoContact (okResult demoBody)] [] (1 / 4) [] rfl
  have h2 := c9_interrupt [demoContact, demoContact2]
    [[SearchResp.ok demoBody], [SearchResp.ok demoBody]] 0 (1 / 4)
    [] [] (1 / 4) [] rfl
  exact ⟨h1.1, (h1.2.2.2 rfl).1, h2.2.2.1 rfl⟩

/-- Header lines before the first valid one are skipped without affecting
the parse. -/
theorem findHeader_append (preamble rest : List String)
    (h1 : ∀ l ∈ preamble, isHeaderLine l = false) :
    findHeader (preamble ++ rest) = findHeader rest := by
  induction preamble with
  | nil => rfl
  | cons p ps ih =>
    have hp := h1 p (List.mem_cons_self p ps)
    rw [List.cons_append, findHeader, if_neg (by simp [hp])]
    exact ih fun l hl => h1 l (List.mem_cons_of_mem p hl)

/-- Claim C5: for tabular input made of any number of non-header preamble
lines followed by a valid header line (one containing both column names)
and data rows, the parser skips the preamble — the parse is the same as
with no preamble, and the detected header is exactly that line. -/
theorem c5_header_skip (preamble : List String) (header : String)
    (rows : List String) (h1 : ∀ l ∈ preamble, isHeaderLine l = false)
    (h2 : isHeaderLine header = true) :
    parse_linkedin_contacts (preamble ++ header :: rows)
      = parse_linkedin_contacts (header :: rows)
    ∧ findHeader (preamble ++ header :: rows) = some (header, rows) := by
  constructor
  · simp only [parse_linkedin_contacts]
    rw [findHeader_append preamble (header :: rows) h1]
  · rw [findHeader_append preamble (header :: rows) h1, findHeader, if_pos h2]

/-- Witness for C5: two junk preamble lines before a LinkedIn header. -/
theorem c5_header_skip_witness :
    parse_linkedin_contacts
        (["Notes:", "When exporting your connection data"]
          ++ "First Name,Last Name,Company,Position" :: ["Ada,Ng,Acme,Dev"])
      = parse_linkedin_contacts
          ("First Name,Last Name,Company,Position" :: ["Ada,Ng,Acme,Dev"])
    ∧ findHeader
        (["Notes:", "When exporting your connection data"]
          ++ "First Name,Last Name,Company,Position" :: ["Ada,Ng,Acme,Dev"])
      = some ("First Name,Last Name,Company,Position", ["Ada,Ng,Acme,Dev"]) :=
  c5_header_skip ["Notes:", "When exporting your connection data"]
    "First Name,Last Name,Company,Position" ["Ada,Ng,Acme,Dev"]
    (by decide) (by decide)

/-- `takeWhile` up to the first comma recovers the comma-free part. -/
theorem takeWhile_until_comma (pre suf : List Char)
    (hpre : pre.contains ',' = false) :
    (pre ++ ',' :: suf).takeWhile (fun c => decide (c ≠ ',')) = pre := by
  induction pre with
  | nil => simp [List.takeWhile_cons]
  | cons a ps ih =>
    have h' : (',' == a) = false ∧ ps.contains ',' = false := by
      simpa [List.contains_cons] using hpre
    have ha : a ≠ ',' := fun hh => by simp [hh] at h'
    rw [List.cons_append, List.takeWhile_cons, if_pos (by simp [ha])]
    rw [ih h'.2]

/-- Claim C6: a last name whose stripped form contains a comma is truncated
to the part before the first comma, trimmed; and on the spec's two-row
scenario the parser returns exactly the single contact
`{Ada, Lovelace, "Ada Lovelace", Acme, Engineer}`, dropping the row with
the empty first name. -/
theorem c6_last_name_truncation :
    (∀ (cs pre suf : List Char), pyStripChars cs = pre ++ ',' :: suf →
      pre.contains ',' = false → cleanLastChars cs = pyStripChars pre)
    ∧ parse_linkedin_contacts
        ["First Name,Last Name,Company,Position",
         "Ada,\"Lovelace, PhD\",Acme,Engineer", ",Doe,X,Y"]
      = [{ first_name := "Ada", last_name := "Lovelace"
           full_name := "Ada Lovelace", company := "Acme"
           position := "Engineer" }] := by
  constructor
  · intro cs pre suf h hpre
    have hcon : (pre ++ ',' :: suf).contains ',' = true := by
      have : ',' ∈ pre ++ ',' :: suf := by simp
      exact List.elem_iff.mpr this
    simp only [cleanLastChars, h, hcon, if_true]
    rw [takeWhile_until_comma pre suf hpre]
  · rfl

/-- Witness for C6: the scenario's own last-name field. -/
theorem c6_last_name_truncation_witness :
    cleanLastChars " Lovelace, PhD ".toList = pyStripChars "Lovelace".toList :=
  c6_last_name_truncation.1 " Lovelace, PhD ".toList "Lovelace".toList
    " PhD".toList (by decide) (by decide)

/-- A decoder that always fails (models undecodable JSON). -/
def demoDecodeNone : String → Option (List XEntry) := fun _ => none

/-- A resolver stub (never reached in the error scenarios). -/
def demoResolver : List String → List Contact × List NetEvent := fun _ => ([], [])

/-- Claim C8: if the script-export file does not begin with the exact
literal `window.YTD.following.part0 = `, or the content after that literal
is not decodable JSON, the process exits with status 1 — and the branch
performs no network call at all (empty network trace). -/
theorem c8_script_export_errors (decode : String → Option (List XEntry))
    (content : String)
    (resolver : List String → List Contact × List NetEvent) :
    (xFilePrelude.toList.isPrefixOf content.toList = false →
      parse_x_following decode content = .error 1
      ∧ mainXBranch decode content resolver = (.error 1, []))
    ∧ (∀ rest : String, content = xFilePrelude ++ rest → decode rest = none →
      parse_x_following decode content = .error 1
      ∧ mainXBranch decode content resolver = (.error 1, [])) := by
  constructor
  · intro h
    have hp : parse_x_following decode content = .error 1 := by
      have hnot : ¬ (xFilePrelude.toList.isPrefixOf content.toList = true) := by
        intro hh
        rw [h] at hh
        exact Bool.noConfusion hh
      unfold parse_x_following
      rw [if_neg hnot]
    exact ⟨hp, by simp [mainXBranch, hp]⟩
  · intro rest hc hd
    have hp : parse_x_following decode content = .error 1 := by
      subst hc
      have hpre : xFilePrelude.toList.isPrefixOf
          (xFilePrelude ++ rest).toList = true := by
        have h1 : (xFilePrelude ++ rest).toList
            = xFilePrelude.toList ++ rest.toList := rfl
        rw [h1, List.isPrefixOf_iff_prefix]
        exact List.prefix_append _ _
      have hdrop : String.mk
          ((xFilePrelude ++ rest).toList.drop xFilePrelude.toList.length)
          = rest := by
        have h1 : (xFilePrelude ++ rest).toList
            = xFilePrelude.toList ++ rest.toList := rfl
        rw [h1, List.drop_left]
        rfl
      unfold parse_x_following
      rw [if_pos hpre, hdrop, hd]
    exact ⟨hp, by simp [mainXBranch, hp]⟩

/-- Witness for C8: a file with the wrong opening literal, and a file with
the right literal but undecodable remainder; both exit 1 with no network
events. -/
theorem c8_script_export_errors_witness :
    (parse_x_following demoDecodeNone "not an export file" = .error 1
      ∧ mainXBranch demoDecodeNone "not an export file" demoResolver
        = (.error 1, []))
    ∧ (parse_x_following demoDecodeNone (xFilePrelude ++ "oops") = .error 1
      ∧ mainXBranch demoDecodeNone (xFilePrelude ++ "oops") demoResolver
        = (.error 1, [])) :=
  ⟨(c8_script_export_errors demoDecodeNone "not an export file"
      demoResolver).1 (by decide),
   (c8_script_export_errors demoDecodeNone (xFilePrelude ++ "oops")
      demoResolver).2 "oops" rfl rfl⟩

/-- Counterexample for C4 as stated: the code's "skip inside an existing
highlight" test is only the adjacency lookaround pair, so with first name
"Al-Bo" and last name "Bo" — a preview containing the full name once and
the last name again elsewhere — the later word-bounded last-name pass
re-wraps the "Bo" strictly inside the full-name highlight, producing a
nested highlight, contradicting the claimed no-nesting guarantee. -/
theorem c4_highlight_counterexample :
    highlight_name_in_preview "Al-Bo Bo and Bo" "Al-Bo" "Bo"
      = "<mark>Al-<mark>Bo</mark> Bo</mark> and <mark>Bo</mark>"
    ∧ hasNestedMark
        (highlight_name_in_preview "Al-Bo Bo and Bo" "Al-Bo" "Bo") = true :=
  ⟨rfl, rfl⟩

/-- Claim C4 (amended): the function HTML-escapes the preview, uses the
escaped name strings as patterns, and wraps matches case-insensitively in
the precedence full name, then word-bounded last name (≥ 2 chars), then
word-bounded first name (≥ 2 chars), skipping only matches immediately
preceded by an opening highlight tag or immediately followed by a closing
one; for single-word name parts this adjacency test does prevent nesting:
on a preview containing the full name once and the word-bounded last name
again elsewhere, both occurrences are wrapped exactly once each (two
highlights, none nested), matching preserves the original character case,
escaping happens before highlighting, and a one-character last name is
never wrapped on its own. -/
theorem c4_highlight_amended :
    highlight_name_in_preview "John Smith met Smith at dinner" "John" "Smith"
      = "<mark>John Smith</mark> met <mark>Smith</mark> at dinner"
    ∧ hasNestedMark (highlight_name_in_preview
        "John Smith met Smith at dinner" "John" "Smith") = false
    ∧ countMarks (highlight_name_in_preview
        "John Smith met Smith at dinner" "John" "Smith") = 2
    ∧ highlight_name_in_preview "JOHN SMITH met SMITH" "John" "Smith"
      = "<mark>JOHN SMITH</mark> met <mark>SMITH</mark>"
    ∧ highlight_name_in_preview "a<b John X" "John" "X"
      = "a&lt;b <mark>John X</mark>" :=
  ⟨rfl, rfl, rfl, rfl, rfl⟩

end EpsteIn
